import Mathlib

/-
Verification development for the real-time presence and broadcast relay of the
learning-platform repository, together with the service-worker cache limiter.

The relay is embedded shallowly from the Socket.io section of
src/unnamed/part_000 (lines 866 to 1000): the authentication middleware
(io.use, lines 869 to 884), the connection handler (lines 886 to 903) and the
per-socket event handlers (join-study-group, collaboration-update,
practice-update, typing, heartbeat, disconnect, lines 906 to 994).
JavaScript Date timestamps are modelled by a logical clock (a Nat counter in
the state, bumped once per processed action), the activeUsers Map by an
association list keyed by user id, and Socket.io room membership by the list
of room names each connection has joined. Every outbound emit is recorded in
an outbox trace of deliveries (target socket id and message); console.error
calls are recorded in an error log and rejected connection attempts in a
rejection trace.

The cache limiter is embedded from src/sw.js: limitCacheSize (lines 276 to
289) and the cache effect of handleDynamicRequest (lines 232 to 259), with a
cache represented as its list of request keys in insertion order.
-/

/-- Credential token carried in the Socket.io handshake. The fields mirror
what the shared-secret verifier inspects: the signed identity (user id and
email), the signature and an expiry flag. -/
structure Token where
  userId : String
  email : String
  sig : String
  expired : Bool
deriving DecidableEq

/-- Modelled from the spec: the external token verifier consumed by the gate
(jwt.verify from the jsonwebtoken library, an external collaborator; the spec
describes it as verify(token) to identity and expiry or failure). It succeeds
exactly when the signature matches the shared secret and the token is not
expired, returning the decoded user id and email. -/
def jwtVerify (secret : String) (t : Token) : Option (String × String) :=
  if t.sig = secret ∧ t.expired = false then some (t.userId, t.email) else none

/-- Presence metadata stored in the activeUsers Map (part_000 lines 890 to
894): socket id, connect time and last-seen time. -/
structure PresenceEntry where
  socketId : Nat
  connectedAt : Nat
  lastSeen : Nat
deriving DecidableEq

/-- An admitted connection: its socket id, the identity attached by the gate
(part_000 lines 877 to 878) and the list of rooms it has joined. -/
structure Conn where
  sid : Nat
  userId : String
  email : String
  rooms : List String
deriving DecidableEq

/-- Outbound messages emitted by the relay (the server-to-client events of
part_000 lines 900, 909, 925, 940, 955, 971, 990 and the error emit of line
917, which is in a catch block no operation of the try body can reach). -/
inductive OutMsg where
  | userOnline (userId : String) (ts : Nat)
  | userOffline (userId : String) (ts : Nat)
  | userJoinedGroup (userId : String) (groupId : Option String) (ts : Nat)
  | collabUpdate (userId : String) (typ content : Option String) (ts : Nat)
  | practiceUpdate (userId : String) (progress accuracy : Option Nat) (ts : Nat)
  | userTyping (userId : String) (ts : Nat)
  | heartbeatAck (ts : Nat)
  | errorMsg (message : String)
deriving DecidableEq

/-- One delivered message: the socket id of the receiving connection and the
message itself. -/
structure Delivery where
  target : Nat
  msg : OutMsg
deriving DecidableEq

/-- Payload of a collaboration-update event as destructured at part_000 line
924; each field is optional because a client may omit it (JavaScript
undefined). A missing whole payload is modelled as none at the event level. -/
structure CollabData where
  groupId : Option String
  typ : Option String
  content : Option String
deriving DecidableEq

/-- Payload of a practice-update event (part_000 line 939). -/
structure PracticeData where
  sessionId : Option String
  progress : Option Nat
  accuracy : Option Nat
deriving DecidableEq

/-- Payload of a typing event (part_000 line 954). -/
structure TypingData where
  roomId : Option String
deriving DecidableEq

/-- Inbound client events handled by the relay (part_000 lines 906, 922, 937,
952, 965). A payload of none models a null or undefined data argument, whose
destructuring throws and lands in the catch block of the handler. -/
inductive InEvent where
  | joinStudyGroup (groupId : Option String)
  | collabUpdate (data : Option CollabData)
  | practiceUpdate (data : Option PracticeData)
  | typing (data : Option TypingData)
  | heartbeat
deriving DecidableEq

/-- Full state of the relay process: admitted connections, the activeUsers
presence map (association list keyed by user id), the trace of deliveries, the
console.error log, the trace of rejected connection attempts, the queue of
fire-and-forget persistence writes started on disconnect, the external user
store they write to, the logical clock and the next fresh socket id. -/
structure ServerState where
  conns : List Conn
  activeUsers : List (String × PresenceEntry)
  outbox : List Delivery
  errlog : List String
  rejections : List String
  pending : List (String × Nat)
  userStore : List (String × Nat)
  now : Nat
  nextSid : Nat
deriving DecidableEq

/-- Map.set on an association list: replaces the entry of the key if present,
appends a fresh entry otherwise. -/
def mapSet {α : Type} (k : String) (v : α) : List (String × α) → List (String × α)
  | [] => [(k, v)]
  | p :: rest => if p.1 = k then (k, v) :: rest else p :: mapSet k v rest

/-- Map.get on an association list. -/
def mapGet {α : Type} (k : String) : List (String × α) → Option α
  | [] => none
  | p :: rest => if p.1 = k then some p.2 else mapGet k rest

/-- Map.delete on an association list. -/
def mapDelete {α : Type} (k : String) : List (String × α) → List (String × α)
  | [] => []
  | p :: rest => if p.1 = k then mapDelete k rest else p :: mapDelete k rest

/-- JavaScript coercion of a possibly-undefined string into a template
literal: undefined prints as the string undefined. -/
def jsStr : Option String → String
  | some s => s
  | none => "undefined"

/-- Effect of socket.join on one connection: appends the room to its room list
unless already present (Socket.io join is idempotent). -/
def joinUpd (sid : Nat) (room : String) (c : Conn) : Conn :=
  if c.sid = sid then
    (if room ∈ c.rooms then c else { c with rooms := c.rooms ++ [room] })
  else c

/-- Effect of socket.join across the connection list. -/
def joinRoom (conns : List Conn) (sid : Nat) (room : String) : List Conn :=
  conns.map (joinUpd sid room)

/-- Semantics of socket.to(room).emit(msg): deliver to every connection that
joined the room, excluding the sending socket. -/
def emitToRoom (conns : List Conn) (senderSid : Nat) (room : String) (m : OutMsg) : List Delivery :=
  (conns.filter (fun c => decide (c.sid ≠ senderSid ∧ room ∈ c.rooms))).map
    (fun c => { target := c.sid, msg := m })

/-- Semantics of socket.broadcast.emit(msg): deliver to every connection
except the sending socket. -/
def broadcastAll (conns : List Conn) (senderSid : Nat) (m : OutMsg) : List Delivery :=
  (conns.filter (fun c => decide (c.sid ≠ senderSid))).map
    (fun c => { target := c.sid, msg := m })

/-- Connections of a state that are members of a room. The spec calls this
members(roomId); in the source membership is implicit in Socket.io rooms. -/
def roomMembers (s : ServerState) (room : String) : List Conn :=
  s.conns.filter (fun c => decide (room ∈ c.rooms))

/-- Deliveries produced by handling one inbound event from connection c
(part_000 lines 906 to 972). The join-study-group handler emits to the room
computed after the join, excluding the sender; collaboration, practice and
typing updates re-broadcast to their room excluding the sender; heartbeat
replies only to the sender. A null payload throws during destructuring, so
those handlers deliver nothing. No reachable path emits OutMsg.errorMsg: the
only such emit (line 917) sits in a catch block whose try body consists of
socket.join, a room emit and console.log, none of which can throw. -/
def eventDeliveries (s : ServerState) (c : Conn) : InEvent → List Delivery
  | .joinStudyGroup g =>
      emitToRoom (joinRoom s.conns c.sid ("group-" ++ jsStr g)) c.sid ("group-" ++ jsStr g)
        (.userJoinedGroup c.userId g s.now)
  | .collabUpdate (some d) =>
      emitToRoom s.conns c.sid ("group-" ++ jsStr d.groupId)
        (.collabUpdate c.userId d.typ d.content s.now)
  | .collabUpdate none => []
  | .practiceUpdate (some d) =>
      emitToRoom s.conns c.sid ("session-" ++ jsStr d.sessionId)
        (.practiceUpdate c.userId d.progress d.accuracy s.now)
  | .practiceUpdate none => []
  | .typing (some d) =>
      emitToRoom s.conns c.sid (jsStr d.roomId) (.userTyping c.userId s.now)
  | .typing none => []
  | .heartbeat => [{ target := c.sid, msg := .heartbeatAck s.now }]

/-- Connection-list effect of one inbound event: only join-study-group
changes room membership (part_000 line 908). -/
def eventConns (s : ServerState) (c : Conn) : InEvent → List Conn
  | .joinStudyGroup g => joinRoom s.conns c.sid ("group-" ++ jsStr g)
  | _ => s.conns

/-- Presence-map effect of one inbound event: only heartbeat touches the
registry, updating lastSeen when an entry exists and never creating one
(part_000 lines 966 to 970). -/
def eventActive (s : ServerState) (c : Conn) : InEvent → List (String × PresenceEntry)
  | .heartbeat =>
      match mapGet c.userId s.activeUsers with
      | some u => mapSet c.userId { u with lastSeen := s.now } s.activeUsers
      | none => s.activeUsers
  | _ => s.activeUsers

/-- Console.error lines produced by one inbound event: only the catch blocks
reached by destructuring a null payload log (part_000 lines 932, 947, 960). -/
def eventLog : InEvent → List String
  | .collabUpdate none => ["Collaboration Update Error"]
  | .practiceUpdate none => ["Practice Update Error"]
  | .typing none => ["Typing Indicator Error"]
  | _ => []

/-- Handling of one inbound event from an admitted connection, assembling the
componentwise effects of the socket.on handlers of part_000. -/
def handleEvent (s : ServerState) (c : Conn) (e : InEvent) : ServerState :=
  { s with conns := eventConns s c e,
           activeUsers := eventActive s c e,
           errlog := s.errlog ++ eventLog e,
           outbox := s.outbox ++ eventDeliveries s c e }

/-- External stimuli driving the relay: a connection attempt carrying an
optional handshake token, an inbound event from a socket, a transport
teardown with its reason string, and the completion (success or failure) of
one queued fire-and-forget persistence write. -/
inductive RelayAction where
  | connect (handshake : Option Token)
  | inbound (sid : Nat) (e : InEvent)
  | disconnect (sid : Nat) (reason : String)
  | persistResult (ok : Bool)
deriving DecidableEq

/-- One step of the relay (part_000 lines 869 to 994). A connection attempt
runs the io.use gate: no token rejects with the no-token message; a token
failing verification logs and rejects with the invalid-token message; a valid
token admits the connection, records presence, joins the personal room
user-<id> and broadcasts user-online to all other connections. An inbound
event from an unknown socket is ignored; from a known socket it runs
handleEvent. A disconnect (for any reason) drops the connection from every
room, deletes its presence entry, queues the fire-and-forget last-seen write
and broadcasts user-offline to all remaining connections. A persistence
completion dequeues one write; a failed completion does nothing at all,
mirroring the empty catch at part_000 line 986. The clock advances by one on
every step. -/
def relayStep (secret : String) (s : ServerState) (a : RelayAction) : ServerState :=
  match a with
  | .connect none =>
      { s with rejections := s.rejections ++ ["Authentication error: No token provided"],
               now := s.now + 1 }
  | .connect (some t) =>
      match jwtVerify secret t with
      | none =>
          { s with errlog := s.errlog ++ ["Socket Auth Error"],
                   rejections := s.rejections ++ ["Authentication error: Invalid token"],
                   now := s.now + 1 }
      | some (uid, em) =>
          { s with conns := s.conns ++ [{ sid := s.nextSid, userId := uid, email := em,
                                          rooms := ["user-" ++ uid] }],
                   activeUsers := mapSet uid
                     { socketId := s.nextSid, connectedAt := s.now, lastSeen := s.now }
                     s.activeUsers,
                   outbox := s.outbox ++ broadcastAll s.conns s.nextSid (.userOnline uid s.now),
                   now := s.now + 1, nextSid := s.nextSid + 1 }
  | .inbound sid e =>
      match s.conns.find? (fun c => c.sid == sid) with
      | none => { s with now := s.now + 1 }
      | some c => { handleEvent s c e with now := s.now + 1 }
  | .disconnect sid _reason =>
      match s.conns.find? (fun c => c.sid == sid) with
      | none => { s with now := s.now + 1 }
      | some c =>
          { s with conns := s.conns.filter (fun x => decide (x.sid ≠ sid)),
                   activeUsers := mapDelete c.userId s.activeUsers,
                   pending := s.pending ++ [(c.userId, s.now)],
                   outbox := s.outbox ++
                     (s.conns.filter (fun x => decide (x.sid ≠ sid))).map
                       (fun x => { target := x.sid, msg := .userOffline c.userId s.now }),
                   now := s.now + 1 }
  | .persistResult ok =>
      match s.pending with
      | [] => { s with now := s.now + 1 }
      | (uid, ts) :: rest =>
          if ok then { s with pending := rest, userStore := mapSet uid ts s.userStore,
                              now := s.now + 1 }
          else { s with pending := rest, now := s.now + 1 }

/-- Initial state of the relay process: no connections, empty registries,
empty traces. -/
def initState : ServerState :=
  { conns := [], activeUsers := [], outbox := [], errlog := [], rejections := [],
    pending := [], userStore := [], now := 0, nextSid := 0 }

/-- Execution of a list of actions from the initial state. -/
def relayRun (secret : String) (acts : List RelayAction) : ServerState :=
  acts.foldl (relayStep secret) initState

/-- Deliveries produced by one action from a given state: the messages the
step appends to the outbox. -/
def sentBy (secret : String) (s : ServerState) (a : RelayAction) : List Delivery :=
  (relayStep secret s a).outbox.drop s.outbox.length

/-- Keys of an association list are pairwise distinct. -/
def keysNodup {α : Type} (m : List (String × α)) : Prop :=
  (m.map Prod.fst).Nodup

/-- Number of entries of an association list holding a given key. -/
def countKey {α : Type} (k : String) (m : List (String × α)) : Nat :=
  (m.map Prod.fst).count k

/-- Socket ids of the connection list are pairwise distinct and below the
fresh-id counter. -/
def sidsOK (s : ServerState) : Prop :=
  (s.conns.map Conn.sid).Nodup ∧ ∀ z ∈ s.conns.map Conn.sid, z < s.nextSid

/-- Every presence entry has a lastSeen strictly before the current clock. -/
def entriesFresh (s : ServerState) : Prop :=
  ∀ p ∈ s.activeUsers, p.2.lastSeen < s.now

/-- Identities of the simultaneously active connections are pairwise
distinct. -/
def identsDistinct (s : ServerState) : Prop :=
  (s.conns.map Conn.userId).Nodup

/-- Presence registry agreement: an entry for an identity exists exactly when
some active connection carries that identity. -/
def presenceMatches (s : ServerState) : Prop :=
  ∀ u, (mapGet u s.activeUsers).isSome ↔ u ∈ s.conns.map Conn.userId

/-- Cache keys kept by the service worker, in insertion order, after the
put of src/sw.js line 242: an existing key keeps its slot, a new key is
appended at the most-recent end. -/
def cachePut (cache : List Nat) (k : Nat) : List Nat :=
  if k ∈ cache then cache else cache ++ [k]

/-- Eviction of src/sw.js lines 276 to 289: when the cache holds more than
maxItems keys, delete the slice of oldest keys so that maxItems remain. -/
def limitCacheSize (cache : List Nat) (maxItems : Nat) : List Nat :=
  if cache.length > maxItems then cache.drop (cache.length - maxItems) else cache

/-- Cache effect of one successful dynamic fetch (src/sw.js lines 236 to
242): trim the dynamic cache to 50 and then put the response; a failed fetch
leaves the cache unchanged. -/
def handleDynamicRequest (cache : List Nat) (k : Nat) (ok : Bool) : List Nat :=
  if ok then cachePut (limitCacheSize cache 50) k else cache

/-- Token of the user u1 signed with the secret sec. -/
def tokU1 : Token := { userId := "u1", email := "e1", sig := "sec", expired := false }

/-- Token of the user u2 signed with the secret sec. -/
def tokU2 : Token := { userId := "u2", email := "e2", sig := "sec", expired := false }

/-- Token carrying a wrong signature. -/
def tokBad : Token := { userId := "u3", email := "e3", sig := "wrong", expired := false }

/-- Two admissions followed by u1 joining the study group g1. -/
def wActs : List RelayAction :=
  [.connect (some tokU1), .connect (some tokU2), .inbound 0 (.joinStudyGroup (some "g1"))]

/-- Two admissions of distinct users. -/
def wActs2 : List RelayAction :=
  [.connect (some tokU1), .connect (some tokU2)]

/-- Trace with two simultaneously active connections of the same identity u1,
of which the second disconnects. -/
def c3CexActs : List RelayAction :=
  [.connect (some tokU1), .connect (some tokU1), .disconnect 1 "transport close"]

/-- Trace in which u1 disconnects and the queued persistence write fails. -/
def c2CexActs : List RelayAction :=
  [.connect (some tokU1), .disconnect 0 "transport close", .persistResult false]

/-- Trace in which u2 joins the study group named undefined and u1 then sends
a collaboration-update whose payload lacks the groupId field. -/
def c7CexActs : List RelayAction :=
  [.connect (some tokU1), .connect (some tokU2),
   .inbound 1 (.joinStudyGroup (some "undefined")),
   .inbound 0 (.collabUpdate (some { groupId := none, typ := some "note",
                                     content := some "hello" }))]

/-- Trace in which u1 joins a study group whose id coincides with the name of
its own personal room, and u2 then sends a typing event naming that room
without the group- marker. -/
def c10CexActs : List RelayAction :=
  [.connect (some tokU1), .connect (some tokU2),
   .inbound 0 (.joinStudyGroup (some "user-u1")),
   .inbound 1 (.typing (some { roomId := some "user-u1" }))]

/-- Looking up the key just set yields the new value. -/
theorem mapGet_mapSet_self {α : Type} (k : String) (v : α) (m : List (String × α)) :
    mapGet k (mapSet k v m) = some v := by
  induction m with
  | nil => simp [mapSet, mapGet]
  | cons p rest ih =>
    by_cases h : p.1 = k
    · simp [mapSet, mapGet, h]
    · simp [mapSet, mapGet, h, ih]

/-- Setting one key leaves lookups of other keys unchanged. -/
theorem mapGet_mapSet_ne {α : Type} (k k' : String) (v : α) (m : List (String × α))
    (h : k' ≠ k) : mapGet k' (mapSet k v m) = mapGet k' m := by
  have hk : k ≠ k' := fun hh => h hh.symm
  induction m with
  | nil => simp [mapSet, mapGet, hk]
  | cons p rest ih =>
    by_cases hp : p.1 = k
    · have hp' : p.1 ≠ k' := fun hh => hk (hp ▸ hh)
      simp [mapSet, mapGet, hp, hp', hk]
    · by_cases hp' : p.1 = k'
      · simp [mapSet, mapGet, hp, hp', h]
      · simp [mapSet, mapGet, hp, hp', ih]

/-- Lookup after a set succeeds exactly for the set key or previously present
keys. -/
theorem isSome_mapGet_mapSet {α : Type} (u k : String) (v : α) (m : List (String × α)) :
    (mapGet u (mapSet k v m)).isSome ↔ u = k ∨ (mapGet u m).isSome := by
  by_cases h : u = k
  · subst h; simp [mapGet_mapSet_self]
  · rw [mapGet_mapSet_ne k u v m h]; simp [h]

/-- Members of a set are the new pair or members of the original list. -/
theorem mem_of_mem_mapSet {α : Type} (k : String) (v : α) (m : List (String × α))
    (p : String × α) (hp : p ∈ mapSet k v m) : p = (k, v) ∨ p ∈ m := by
  induction m with
  | nil => simpa [mapSet] using hp
  | cons q rest ih =>
    by_cases h : q.1 = k
    · simp only [mapSet, if_pos h, List.mem_cons] at hp
      rcases hp with hp | hp
      · exact Or.inl hp
      · exact Or.inr (List.mem_cons_of_mem _ hp)
    · simp only [mapSet, if_neg h, List.mem_cons] at hp
      rcases hp with hp | hp
      · exact Or.inr (hp ▸ List.mem_cons_self q rest)
      · rcases ih hp with hp' | hp'
        · exact Or.inl hp'
        · exact Or.inr (List.mem_cons_of_mem _ hp')

/-- Keys after a set are the set key together with the original keys. -/
theorem mem_keys_mapSet {α : Type} (k k' : String) (v : α) (m : List (String × α)) :
    k' ∈ (mapSet k v m).map Prod.fst ↔ k' = k ∨ k' ∈ m.map Prod.fst := by
  induction m with
  | nil => simp [mapSet]
  | cons p rest ih =>
    by_cases h : p.1 = k
    · constructor
      · intro hm
        simp only [mapSet, if_pos h, List.map_cons, List.mem_cons] at hm
        rcases hm with hm | hm
        · exact Or.inl hm
        · exact Or.inr (by simp [List.mem_cons, hm])
      · intro hm
        simp only [mapSet, if_pos h, List.map_cons, List.mem_cons]
        rcases hm with hm | hm
        · exact Or.inl hm
        · simp only [List.map_cons, List.mem_cons] at hm
          rcases hm with hm | hm
          · exact Or.inl (hm.trans h)
          · exact Or.inr hm
    · simp only [mapSet, if_neg h, List.map_cons, List.mem_cons, ih]
      tauto

/-- Setting a key preserves distinctness of the keys. -/
theorem keysNodup_mapSet {α : Type} (k : String) (v : α) (m : List (String × α))
    (h : keysNodup m) : keysNodup (mapSet k v m) := by
  induction m with
  | nil => simp [keysNodup, mapSet]
  | cons p rest ih =>
    simp only [keysNodup, List.map_cons, List.nodup_cons] at h
    by_cases hp : p.1 = k
    · simp only [keysNodup, mapSet, if_pos hp, List.map_cons, List.nodup_cons]
      exact ⟨fun hk => h.1 (hp ▸ hk), h.2⟩
    · simp only [keysNodup, mapSet, if_neg hp, List.map_cons, List.nodup_cons]
      refine ⟨fun hk => ?_, ih h.2⟩
      rcases (mem_keys_mapSet k p.1 v rest).mp hk with hk' | hk'
      · exact hp hk'
      · exact h.1 hk'

/-- Setting a key on a list with distinct keys leaves exactly one entry of
that key. -/
theorem countKey_mapSet_self {α : Type} (k : String) (v : α) (m : List (String × α))
    (h : keysNodup m) : countKey k (mapSet k v m) = 1 := by
  induction m with
  | nil => simp [countKey, mapSet]
  | cons p rest ih =>
    simp only [keysNodup, List.map_cons, List.nodup_cons] at h
    by_cases hp : p.1 = k
    · simp only [countKey, mapSet, if_pos hp, List.map_cons]
      have : (rest.map Prod.fst).count k = 0 :=
        List.count_eq_zero.mpr (fun hk => h.1 (hp ▸ hk))
      simp [List.count_cons, this]
    · simp only [countKey, mapSet, if_neg hp, List.map_cons, List.count_cons]
      have := ih h.2
      simp only [countKey] at this
      simp [this, hp]

/-- Distinct keys bound every key count by one. -/
theorem countKey_le_one {α : Type} (k : String) (m : List (String × α))
    (h : keysNodup m) : countKey k m ≤ 1 :=
  List.nodup_iff_count_le_one.mp h k

/-- Setting a key that is already present keeps the length. -/
theorem length_mapSet_of_isSome {α : Type} (k : String) (v : α) (m : List (String × α))
    (h : (mapGet k m).isSome) : (mapSet k v m).length = m.length := by
  induction m with
  | nil => simp [mapGet] at h
  | cons p rest ih =>
    by_cases hp : p.1 = k
    · simp [mapSet, hp]
    · simp only [mapGet, if_neg hp] at h
      simp [mapSet, hp, ih h]

/-- Deleting a key removes its entry. -/
theorem mapGet_mapDelete_self {α : Type} (k : String) (m : List (String × α)) :
    mapGet k (mapDelete k m) = none := by
  induction m with
  | nil => simp [mapDelete, mapGet]
  | cons p rest ih =>
    by_cases hp : p.1 = k
    · simpa [mapDelete, mapGet, hp] using ih
    · simpa [mapDelete, mapGet, hp] using ih

/-- Deleting one key leaves lookups of other keys unchanged. -/
theorem mapGet_mapDelete_ne {α : Type} (k k' : String) (m : List (String × α))
    (h : k' ≠ k) : mapGet k' (mapDelete k m) = mapGet k' m := by
  have hk : k ≠ k' := fun hh => h hh.symm
  induction m with
  | nil => simp [mapDelete, mapGet]
  | cons p rest ih =>
    by_cases hp : p.1 = k
    · have hp' : p.1 ≠ k' := fun hh => h (hh ▸ hp)
      simp [mapDelete, mapGet, hp, hp', ih, hk]
    · by_cases hp' : p.1 = k'
      · simp [mapDelete, mapGet, hp, hp', h]
      · simp [mapDelete, mapGet, hp, hp', ih]

/-- Deletion yields a sublist. -/
theorem mapDelete_sublist {α : Type} (k : String) (m : List (String × α)) :
    List.Sublist (mapDelete k m) m := by
  induction m with
  | nil => simp [mapDelete]
  | cons p rest ih =>
    by_cases hp : p.1 = k
    · simpa [mapDelete, hp] using ih.cons p
    · simpa [mapDelete, hp] using ih.cons₂ p

/-- Deletion preserves distinctness of the keys. -/
theorem keysNodup_mapDelete {α : Type} (k : String) (m : List (String × α))
    (h : keysNodup m) : keysNodup (mapDelete k m) :=
  (((mapDelete_sublist k m)).map Prod.fst).nodup h

/-- Members after a deletion were members before. -/
theorem mem_of_mem_mapDelete {α : Type} (k : String) (m : List (String × α))
    (p : String × α) (hp : p ∈ mapDelete k m) : p ∈ m :=
  (mapDelete_sublist k m).mem hp

/-- A successful lookup exhibits a member of the list. -/
theorem mem_of_mapGet_eq_some {α : Type} (k : String) (v : α) (m : List (String × α))
    (h : mapGet k m = some v) : (k, v) ∈ m := by
  induction m with
  | nil => simp [mapGet] at h
  | cons p rest ih =>
    obtain ⟨a, b⟩ := p
    by_cases hp : a = k
    · simp only [mapGet, if_pos hp] at h
      subst hp
      have hb : b = v := by simpa using h
      subst hb
      exact List.mem_cons_self _ _
    · simp only [mapGet, if_neg hp] at h
      exact List.mem_cons_of_mem _ (ih h)

/-- Joining a room never changes a socket id. -/
theorem joinUpd_sid (sid : Nat) (room : String) (c : Conn) :
    (joinUpd sid room c).sid = c.sid := by
  unfold joinUpd
  split
  · split <;> rfl
  · rfl

/-- Joining a room never changes an identity. -/
theorem joinUpd_userId (sid : Nat) (room : String) (c : Conn) :
    (joinUpd sid room c).userId = c.userId := by
  unfold joinUpd
  split
  · split <;> rfl
  · rfl

/-- Joining a room leaves other sockets untouched. -/
theorem joinUpd_of_ne (sid : Nat) (room : String) (c : Conn) (h : c.sid ≠ sid) :
    joinUpd sid room c = c := by
  unfold joinUpd
  simp [h]

/-- The joining socket is in the room afterwards. -/
theorem mem_rooms_joinUpd (sid : Nat) (room : String) (c : Conn) (h : c.sid = sid) :
    room ∈ (joinUpd sid room c).rooms := by
  unfold joinUpd
  by_cases hr : room ∈ c.rooms <;> simp [h, hr]

/-- A join keeps the multiset of socket ids. -/
theorem joinRoom_map_sid (conns : List Conn) (sid : Nat) (room : String) :
    (joinRoom conns sid room).map Conn.sid = conns.map Conn.sid := by
  unfold joinRoom
  rw [List.map_map]
  exact List.map_congr_left (fun c _ => joinUpd_sid sid room c)

/-- A join keeps the multiset of identities. -/
theorem joinRoom_map_userId (conns : List Conn) (sid : Nat) (room : String) :
    (joinRoom conns sid room).map Conn.userId = conns.map Conn.userId := by
  unfold joinRoom
  rw [List.map_map]
  exact List.map_congr_left (fun c _ => joinUpd_userId sid room c)

/-- Characterization of a room emit: a delivery is produced exactly for the
connections in the room other than the sender. -/
theorem mem_emitToRoom (conns : List Conn) (senderSid : Nat) (room : String) (m : OutMsg)
    (d : Delivery) :
    d ∈ emitToRoom conns senderSid room m ↔
      ∃ x ∈ conns, x.sid ≠ senderSid ∧ room ∈ x.rooms ∧ d = { target := x.sid, msg := m } := by
  unfold emitToRoom
  simp only [List.mem_map, List.mem_filter, decide_eq_true_eq]
  constructor
  · rintro ⟨x, ⟨hx, hcond⟩, rfl⟩
    exact ⟨x, hx, hcond.1, hcond.2, rfl⟩
  · rintro ⟨x, hx, h1, h2, rfl⟩
    exact ⟨x, ⟨hx, h1, h2⟩, rfl⟩

/-- A found connection is a member with the looked-up socket id. -/
theorem find?_sid_facts (conns : List Conn) (sid : Nat) (c : Conn)
    (hc : conns.find? (fun x => x.sid == sid) = some c) :
    c ∈ conns ∧ c.sid = sid := by
  refine ⟨List.mem_of_find?_eq_some hc, ?_⟩
  have := List.find?_some hc
  simpa using this

/-- Step equation: inbound event from a known socket. -/
theorem relayStep_inbound_some (secret : String) (s : ServerState) (sid : Nat) (e : InEvent)
    (c : Conn) (hc : s.conns.find? (fun x => x.sid == sid) = some c) :
    relayStep secret s (.inbound sid e) = { handleEvent s c e with now := s.now + 1 } := by
  simp [relayStep, hc]

/-- Step equation: inbound event from an unknown socket. -/
theorem relayStep_inbound_none (secret : String) (s : ServerState) (sid : Nat) (e : InEvent)
    (hc : s.conns.find? (fun x => x.sid == sid) = none) :
    relayStep secret s (.inbound sid e) = { s with now := s.now + 1 } := by
  simp [relayStep, hc]

/-- Step equation: disconnect of a known socket. -/
theorem relayStep_disconnect_some (secret : String) (s : ServerState) (sid : Nat)
    (reason : String) (c : Conn) (hc : s.conns.find? (fun x => x.sid == sid) = some c) :
    relayStep secret s (.disconnect sid reason) =
      { s with conns := s.conns.filter (fun x => decide (x.sid ≠ sid)),
               activeUsers := mapDelete c.userId s.activeUsers,
               pending := s.pending ++ [(c.userId, s.now)],
               outbox := s.outbox ++
                 (s.conns.filter (fun x => decide (x.sid ≠ sid))).map
                   (fun x => { target := x.sid, msg := .userOffline c.userId s.now }),
               now := s.now + 1 } := by
  simp [relayStep, hc]

/-- Step equation: admission through a token the verifier accepts. -/
theorem relayStep_connect_valid (secret : String) (s : ServerState) (t : Token)
    (hsig : t.sig = secret) (hexp : t.expired = false) :
    relayStep secret s (.connect (some t)) =
      { s with conns := s.conns ++ [{ sid := s.nextSid, userId := t.userId, email := t.email,
                                      rooms := ["user-" ++ t.userId] }],
               activeUsers := mapSet t.userId
                 { socketId := s.nextSid, connectedAt := s.now, lastSeen := s.now }
                 s.activeUsers,
               outbox := s.outbox ++ broadcastAll s.conns s.nextSid (.userOnline t.userId s.now),
               now := s.now + 1, nextSid := s.nextSid + 1 } := by
  simp [relayStep, jwtVerify, hsig, hexp]

/-- Outbox projection of handling an event. -/
theorem handleEvent_outbox (s : ServerState) (c : Conn) (e : InEvent) :
    (handleEvent s c e).outbox = s.outbox ++ eventDeliveries s c e := rfl

/-- Deliveries of an inbound event from a known socket. -/
theorem sentBy_inbound_some (secret : String) (s : ServerState) (sid : Nat) (e : InEvent)
    (c : Conn) (hc : s.conns.find? (fun x => x.sid == sid) = some c) :
    sentBy secret s (.inbound sid e) = eventDeliveries s c e := by
  unfold sentBy
  rw [relayStep_inbound_some secret s sid e c hc]
  exact List.drop_left _ _

/-- Deliveries of an inbound event from an unknown socket. -/
theorem sentBy_inbound_none (secret : String) (s : ServerState) (sid : Nat) (e : InEvent)
    (hc : s.conns.find? (fun x => x.sid == sid) = none) :
    sentBy secret s (.inbound sid e) = [] := by
  unfold sentBy
  rw [relayStep_inbound_none secret s sid e hc]
  simp

/-- Deliveries of a disconnect of a known socket: user-offline to every
remaining connection. -/
theorem sentBy_disconnect_some (secret : String) (s : ServerState) (sid : Nat)
    (reason : String) (c : Conn) (hc : s.conns.find? (fun x => x.sid == sid) = some c) :
    sentBy secret s (.disconnect sid reason) =
      (s.conns.filter (fun x => decide (x.sid ≠ sid))).map
        (fun x => { target := x.sid, msg := .userOffline c.userId s.now }) := by
  unfold sentBy
  rw [relayStep_disconnect_some secret s sid reason c hc]
  exact List.drop_left _ _

/-- Running one more action steps the final state. -/
theorem relayRun_append (secret : String) (acts : List RelayAction) (a : RelayAction) :
    relayRun secret (acts ++ [a]) = relayStep secret (relayRun secret acts) a := by
  simp [relayRun, List.foldl_append]

/-- Step equation: connection attempt without a token. -/
theorem relayStep_connect_none (secret : String) (s : ServerState) :
    relayStep secret s (.connect none) =
      { s with rejections := s.rejections ++ ["Authentication error: No token provided"],
               now := s.now + 1 } := rfl

/-- Step equation: connection attempt with a token the verifier refuses. -/
theorem relayStep_connect_invalid (secret : String) (s : ServerState) (t : Token)
    (hv : jwtVerify secret t = none) :
    relayStep secret s (.connect (some t)) =
      { s with errlog := s.errlog ++ ["Socket Auth Error"],
               rejections := s.rejections ++ ["Authentication error: Invalid token"],
               now := s.now + 1 } := by
  simp [relayStep, hv]

/-- Step equation: persistence completion with an empty queue. -/
theorem relayStep_persist_nil (secret : String) (s : ServerState) (ok : Bool)
    (hp : s.pending = []) :
    relayStep secret s (.persistResult ok) = { s with now := s.now + 1 } := by
  simp [relayStep, hp]

/-- Step equation: successful persistence completion writes the store. -/
theorem relayStep_persist_ok (secret : String) (s : ServerState) (uid : String) (ts : Nat)
    (rest : List (String × Nat)) (hp : s.pending = (uid, ts) :: rest) :
    relayStep secret s (.persistResult true) =
      { s with pending := rest, userStore := mapSet uid ts s.userStore, now := s.now + 1 } := by
  simp [relayStep, hp]

/-- Step equation: failed persistence completion does nothing but dequeue,
mirroring the empty catch of part_000 line 986. -/
theorem relayStep_persist_fail (secret : String) (s : ServerState) (uid : String) (ts : Nat)
    (rest : List (String × Nat)) (hp : s.pending = (uid, ts) :: rest) :
    relayStep secret s (.persistResult false) =
      { s with pending := rest, now := s.now + 1 } := by
  simp [relayStep, hp]

/-- A persistence completion, successful or failed, delivers nothing. -/
theorem outbox_relayStep_persist (secret : String) (z : ServerState) (ok : Bool) :
    (relayStep secret z (.persistResult ok)).outbox = z.outbox := by
  cases hp : z.pending with
  | nil => rw [relayStep_persist_nil secret z ok hp]
  | cons q rest =>
    obtain ⟨uid, ts⟩ := q
    cases ok with
    | false => rw [relayStep_persist_fail secret z uid ts rest hp]
    | true => rw [relayStep_persist_ok secret z uid ts rest hp]

/-- A persistence completion, successful or failed, logs nothing. -/
theorem errlog_relayStep_persist (secret : String) (z : ServerState) (ok : Bool) :
    (relayStep secret z (.persistResult ok)).errlog = z.errlog := by
  cases hp : z.pending with
  | nil => rw [relayStep_persist_nil secret z ok hp]
  | cons q rest =>
    obtain ⟨uid, ts⟩ := q
    cases ok with
    | false => rw [relayStep_persist_fail secret z uid ts rest hp]
    | true => rw [relayStep_persist_ok secret z uid ts rest hp]

/-- A persistence completion rejects nothing. -/
theorem rejections_relayStep_persist (secret : String) (z : ServerState) (ok : Bool) :
    (relayStep secret z (.persistResult ok)).rejections = z.rejections := by
  cases hp : z.pending with
  | nil => rw [relayStep_persist_nil secret z ok hp]
  | cons q rest =>
    obtain ⟨uid, ts⟩ := q
    cases ok with
    | false => rw [relayStep_persist_fail secret z uid ts rest hp]
    | true => rw [relayStep_persist_ok secret z uid ts rest hp]

/-- The clock advances by exactly one on every step. -/
theorem now_relayStep (secret : String) (s : ServerState) (a : RelayAction) :
    (relayStep secret s a).now = s.now + 1 := by
  cases a with
  | connect hs =>
    cases hs with
    | none => rfl
    | some t =>
      by_cases hcond : t.sig = secret ∧ t.expired = false
      · rw [relayStep_connect_valid secret s t hcond.1 hcond.2]
      · rw [relayStep_connect_invalid secret s t (by rw [jwtVerify, if_neg hcond])]
  | inbound sid e =>
    cases hc : s.conns.find? (fun x => x.sid == sid) with
    | none => rw [relayStep_inbound_none secret s sid e hc]
    | some c => rw [relayStep_inbound_some secret s sid e c hc]
  | disconnect sid reason =>
    cases hc : s.conns.find? (fun x => x.sid == sid) with
    | none => simp [relayStep, hc]
    | some c => rw [relayStep_disconnect_some secret s sid reason c hc]
  | persistResult ok =>
    cases hp : s.pending with
    | nil => rw [relayStep_persist_nil secret s ok hp]
    | cons q rest =>
      obtain ⟨uid, ts⟩ := q
      cases ok with
      | false => rw [relayStep_persist_fail secret s uid ts rest hp]
      | true => rw [relayStep_persist_ok secret s uid ts rest hp]

/-- Shape of the presence map after one step: unchanged, one key set to an
entry stamped with the pre-step clock, or one key deleted. -/
theorem activeUsers_relayStep_cases (secret : String) (s : ServerState) (a : RelayAction) :
    (relayStep secret s a).activeUsers = s.activeUsers
  ∨ (∃ k v, v.lastSeen = s.now ∧
       (relayStep secret s a).activeUsers = mapSet k v s.activeUsers)
  ∨ (∃ k, (relayStep secret s a).activeUsers = mapDelete k s.activeUsers) := by
  cases a with
  | connect hs =>
    cases hs with
    | none => left; rfl
    | some t =>
      by_cases hcond : t.sig = secret ∧ t.expired = false
      · right; left
        exact ⟨t.userId, { socketId := s.nextSid, connectedAt := s.now, lastSeen := s.now },
          rfl, by rw [relayStep_connect_valid secret s t hcond.1 hcond.2]⟩
      · left; rw [relayStep_connect_invalid secret s t (by rw [jwtVerify, if_neg hcond])]
  | inbound sid e =>
    cases hc : s.conns.find? (fun x => x.sid == sid) with
    | none => left; rw [relayStep_inbound_none secret s sid e hc]
    | some c =>
      rw [relayStep_inbound_some secret s sid e c hc]
      cases e with
      | joinStudyGroup g => left; rfl
      | collabUpdate d => left; rfl
      | practiceUpdate d => left; rfl
      | typing d => left; rfl
      | heartbeat =>
        cases hg : mapGet c.userId s.activeUsers with
        | none =>
          left
          show eventActive s c .heartbeat = s.activeUsers
          rw [eventActive, hg]
        | some v =>
          right; left
          refine ⟨c.userId, { v with lastSeen := s.now }, rfl, ?_⟩
          show eventActive s c .heartbeat = _
          rw [eventActive, hg]
  | disconnect sid reason =>
    cases hc : s.conns.find? (fun x => x.sid == sid) with
    | none => left; simp [relayStep, hc]
    | some c =>
      right; right
      exact ⟨c.userId, by rw [relayStep_disconnect_some secret s sid reason c hc]⟩
  | persistResult ok =>
    left
    cases hp : s.pending with
    | nil => rw [relayStep_persist_nil secret s ok hp]
    | cons q rest =>
      obtain ⟨uid, ts⟩ := q
      cases ok with
      | false => rw [relayStep_persist_fail secret s uid ts rest hp]
      | true => rw [relayStep_persist_ok secret s uid ts rest hp]

/-- Distinct presence keys are preserved by every step. -/
theorem keysNodup_relayStep (secret : String) (s : ServerState) (a : RelayAction)
    (h : keysNodup s.activeUsers) : keysNodup (relayStep secret s a).activeUsers := by
  rcases activeUsers_relayStep_cases secret s a with heq | ⟨k, v, _, heq⟩ | ⟨k, heq⟩
  · rw [heq]; exact h
  · rw [heq]; exact keysNodup_mapSet _ _ _ h
  · rw [heq]; exact keysNodup_mapDelete _ _ h

/-- Freshness of last-seen stamps is preserved by every step. -/
theorem entriesFresh_relayStep (secret : String) (s : ServerState) (a : RelayAction)
    (h : entriesFresh s) : entriesFresh (relayStep secret s a) := by
  intro p hp
  rw [now_relayStep]
  rcases activeUsers_relayStep_cases secret s a with heq | ⟨k, v, hv, heq⟩ | ⟨k, heq⟩
  · rw [heq] at hp
    exact Nat.lt_succ_of_lt (h p hp)
  · rw [heq] at hp
    rcases mem_of_mem_mapSet k v _ p hp with rfl | hp'
    · show v.lastSeen < s.now + 1
      rw [hv]
      exact Nat.lt_succ_self s.now
    · exact Nat.lt_succ_of_lt (h p hp')
  · rw [heq] at hp
    exact Nat.lt_succ_of_lt (h p (mem_of_mem_mapDelete k _ p hp))

/-- Distinctness and boundedness of socket ids are preserved by every step. -/
theorem sidsOK_relayStep (secret : String) (s : ServerState) (a : RelayAction)
    (h : sidsOK s) : sidsOK (relayStep secret s a) := by
  obtain ⟨hnd, hlt⟩ := h
  cases a with
  | connect hs =>
    cases hs with
    | none => exact ⟨hnd, hlt⟩
    | some t =>
      by_cases hcond : t.sig = secret ∧ t.expired = false
      · rw [relayStep_connect_valid secret s t hcond.1 hcond.2]
        constructor
        · show ((s.conns ++ [_]).map Conn.sid).Nodup
          rw [List.map_append]
          rw [List.nodup_append]
          refine ⟨hnd, List.nodup_singleton _, ?_⟩
          intro z hz hz'
          simp only [List.map_cons, List.map_nil, List.mem_singleton] at hz'
          subst hz'
          exact absurd (hlt _ hz) (lt_irrefl _)
        · intro z hz
          show z < s.nextSid + 1
          rw [show (({ s with
              conns := s.conns ++ [{ sid := s.nextSid, userId := t.userId, email := t.email,
                                     rooms := ["user-" ++ t.userId] }],
              activeUsers := mapSet t.userId
                { socketId := s.nextSid, connectedAt := s.now, lastSeen := s.now } s.activeUsers,
              outbox := s.outbox ++ broadcastAll s.conns s.nextSid (.userOnline t.userId s.now),
              now := s.now + 1, nextSid := s.nextSid + 1 } : ServerState).conns)
            = s.conns ++ [{ sid := s.nextSid, userId := t.userId, email := t.email,
                            rooms := ["user-" ++ t.userId] }] from rfl, List.map_append,
            List.mem_append] at hz
          rcases hz with hz | hz
          · exact Nat.lt_succ_of_lt (hlt z hz)
          · simp only [List.map_cons, List.map_nil, List.mem_singleton] at hz
            subst hz
            exact Nat.lt_succ_self _
      · rw [relayStep_connect_invalid secret s t (by rw [jwtVerify, if_neg hcond])]
        exact ⟨hnd, hlt⟩
  | inbound sid e =>
    cases hc : s.conns.find? (fun x => x.sid == sid) with
    | none => rw [relayStep_inbound_none secret s sid e hc]; exact ⟨hnd, hlt⟩
    | some c =>
      rw [relayStep_inbound_some secret s sid e c hc]
      cases e with
      | joinStudyGroup g =>
        constructor
        · show ((joinRoom s.conns c.sid ("group-" ++ jsStr g)).map Conn.sid).Nodup
          rw [joinRoom_map_sid]
          exact hnd
        · intro z hz
          have hz' : z ∈ (joinRoom s.conns c.sid ("group-" ++ jsStr g)).map Conn.sid := hz
          rw [joinRoom_map_sid] at hz'
          exact hlt z hz'
      | collabUpdate d => exact ⟨hnd, hlt⟩
      | practiceUpdate d => exact ⟨hnd, hlt⟩
      | typing d => exact ⟨hnd, hlt⟩
      | heartbeat => exact ⟨hnd, hlt⟩
  | disconnect sid reason =>
    cases hc : s.conns.find? (fun x => x.sid == sid) with
    | none => rw [show relayStep secret s (.disconnect sid reason) = { s with now := s.now + 1 }
                  from by simp [relayStep, hc]]
              exact ⟨hnd, hlt⟩
    | some c =>
      rw [relayStep_disconnect_some secret s sid reason c hc]
      have hsub : List.Sublist ((s.conns.filter (fun x => decide (x.sid ≠ sid))).map Conn.sid)
          (s.conns.map Conn.sid) := (List.filter_sublist s.conns).map Conn.sid
      exact ⟨hsub.nodup hnd, fun z hz => hlt z (hsub.mem hz)⟩
  | persistResult ok =>
    cases hp : s.pending with
    | nil => rw [relayStep_persist_nil secret s ok hp]; exact ⟨hnd, hlt⟩
    | cons q rest =>
      obtain ⟨uid, ts⟩ := q
      cases ok with
      | false => rw [relayStep_persist_fail secret s uid ts rest hp]; exact ⟨hnd, hlt⟩
      | true => rw [relayStep_persist_ok secret s uid ts rest hp]; exact ⟨hnd, hlt⟩

/-- Induction principle along executions. -/
theorem run_invariant (secret : String) (P : ServerState → Prop)
    (hstep : ∀ s a, P s → P (relayStep secret s a)) (hinit : P initState)
    (acts : List RelayAction) : P (relayRun secret acts) := by
  suffices h : ∀ z, P z → P (acts.foldl (relayStep secret) z) from h initState hinit
  induction acts with
  | nil => intro z hz; exact hz
  | cons a rest ih => intro z hz; exact ih _ (hstep z a hz)

/-- Presence keys are distinct in every reachable state. -/
theorem keysNodup_run (secret : String) (acts : List RelayAction) :
    keysNodup (relayRun secret acts).activeUsers :=
  run_invariant secret (fun z => keysNodup z.activeUsers)
    (fun z a hz => keysNodup_relayStep secret z a hz) (by simp [initState, keysNodup]) acts

/-- Last-seen stamps precede the clock in every reachable state. -/
theorem entriesFresh_run (secret : String) (acts : List RelayAction) :
    entriesFresh (relayRun secret acts) :=
  run_invariant secret entriesFresh
    (fun z a hz => entriesFresh_relayStep secret z a hz)
    (by intro p hp; simp [initState] at hp) acts

/-- Socket ids are distinct and bounded in every reachable state. -/
theorem sidsOK_run (secret : String) (acts : List RelayAction) :
    sidsOK (relayRun secret acts) :=
  run_invariant secret sidsOK
    (fun z a hz => sidsOK_relayStep secret z a hz)
    (by constructor <;> simp [initState]) acts

/-- Presence agreement is preserved by any step from a state whose socket ids
and identities are pairwise distinct. Distinct identities are needed exactly
for the disconnect case: activeUsers is keyed by user id alone, so a
disconnect deletes the identity entry outright (part_000 line 979). -/
theorem presenceMatches_relayStep (secret : String) (s : ServerState) (a : RelayAction)
    (hsid : (s.conns.map Conn.sid).Nodup) (hid : identsDistinct s)
    (h : presenceMatches s) : presenceMatches (relayStep secret s a) := by
  intro u
  cases a with
  | connect hs =>
    cases hs with
    | none => exact h u
    | some t =>
      by_cases hcond : t.sig = secret ∧ t.expired = false
      · rw [relayStep_connect_valid secret s t hcond.1 hcond.2]
        show (mapGet u (mapSet t.userId
            ({ socketId := s.nextSid, connectedAt := s.now, lastSeen := s.now } : PresenceEntry)
            s.activeUsers)).isSome = true ↔
          u ∈ (s.conns ++ [({ sid := s.nextSid, userId := t.userId, email := t.email,
                              rooms := ["user-" ++ t.userId] } : Conn)]).map Conn.userId
        rw [isSome_mapGet_mapSet, List.map_append, List.mem_append, h u]
        simp only [List.map_cons, List.map_nil, List.mem_singleton]
        tauto
      · rw [relayStep_connect_invalid secret s t (by rw [jwtVerify, if_neg hcond])]
        exact h u
  | inbound sid e =>
    cases hc : s.conns.find? (fun x => x.sid == sid) with
    | none => rw [relayStep_inbound_none secret s sid e hc]; exact h u
    | some c =>
      rw [relayStep_inbound_some secret s sid e c hc]
      cases e with
      | joinStudyGroup g =>
        show (mapGet u s.activeUsers).isSome = true ↔
          u ∈ (joinRoom s.conns c.sid ("group-" ++ jsStr g)).map Conn.userId
        rw [joinRoom_map_userId]
        exact h u
      | collabUpdate d => exact h u
      | practiceUpdate d => exact h u
      | typing d => exact h u
      | heartbeat =>
        cases hg : mapGet c.userId s.activeUsers with
        | none =>
          show (mapGet u (eventActive s c .heartbeat)).isSome = true ↔
            u ∈ s.conns.map Conn.userId
          rw [show eventActive s c .heartbeat = s.activeUsers from by rw [eventActive, hg]]
          exact h u
        | some v =>
          show (mapGet u (eventActive s c .heartbeat)).isSome = true ↔
            u ∈ s.conns.map Conn.userId
          rw [show eventActive s c .heartbeat
              = mapSet c.userId { v with lastSeen := s.now } s.activeUsers from by
                rw [eventActive, hg]]
          rw [isSome_mapGet_mapSet]
          constructor
          · rintro (rfl | hsome)
            · exact (h c.userId).mp (by rw [hg]; rfl)
            · exact (h u).mp hsome
          · intro hmem
            exact Or.inr ((h u).mpr hmem)
  | disconnect sid reason =>
    cases hc : s.conns.find? (fun x => x.sid == sid) with
    | none =>
      rw [show relayStep secret s (.disconnect sid reason) = { s with now := s.now + 1 }
          from by simp [relayStep, hc]]
      exact h u
    | some c =>
      obtain ⟨hcmem, hcsid⟩ := find?_sid_facts s.conns sid c hc
      rw [relayStep_disconnect_some secret s sid reason c hc]
      show (mapGet u (mapDelete c.userId s.activeUsers)).isSome = true ↔
        u ∈ (s.conns.filter (fun x => decide (x.sid ≠ sid))).map Conn.userId
      by_cases hu : u = c.userId
      · subst hu
        rw [mapGet_mapDelete_self]
        simp only [Option.isSome_none, Bool.false_eq_true, false_iff]
        intro hmem
        rcases List.mem_map.mp hmem with ⟨x, hxf, hxu⟩
        rcases List.mem_filter.mp hxf with ⟨hxmem, hxdec⟩
        have hxc : x = c := List.inj_on_of_nodup_map hid hxmem hcmem hxu
        subst hxc
        rw [decide_eq_true_eq] at hxdec
        exact hxdec hcsid
      · rw [mapGet_mapDelete_ne c.userId u s.activeUsers hu, h u]
        constructor
        · intro hmem
          rcases List.mem_map.mp hmem with ⟨x, hxmem, hxu⟩
          refine List.mem_map.mpr ⟨x, List.mem_filter.mpr ⟨hxmem, ?_⟩, hxu⟩
          rw [decide_eq_true_eq]
          intro hxsid
          have hxc : x = c := List.inj_on_of_nodup_map hsid hxmem hcmem (by rw [hxsid, hcsid])
          exact hu (by rw [← hxu, hxc])
        · intro hmem
          rcases List.mem_map.mp hmem with ⟨x, hxf, hxu⟩
          exact List.mem_map.mpr ⟨x, (List.mem_filter.mp hxf).1, hxu⟩
  | persistResult ok =>
    cases hp : s.pending with
    | nil => rw [relayStep_persist_nil secret s ok hp]; exact h u
    | cons q rest =>
      obtain ⟨uid, ts⟩ := q
      cases ok with
      | false => rw [relayStep_persist_fail secret s uid ts rest hp]; exact h u
      | true => rw [relayStep_persist_ok secret s uid ts rest hp]; exact h u

/-- A connection other than the joining socket is in the list after a join
exactly when it was there before. -/
theorem mem_joinRoom_iff_of_ne (conns : List Conn) (sid : Nat) (room : String) (x : Conn)
    (hx : x.sid ≠ sid) : x ∈ joinRoom conns sid room ↔ x ∈ conns := by
  constructor
  · intro hmem
    rcases List.mem_map.mp hmem with ⟨y, hy, hxy⟩
    have hysid : y.sid = x.sid := by rw [← hxy, joinUpd_sid]
    have hyne : y.sid ≠ sid := hysid ▸ hx
    rw [← hxy, joinUpd_of_ne sid room y hyne]
    exact hy
  · intro hmem
    exact List.mem_map.mpr ⟨x, hmem, joinUpd_of_ne sid room x hx⟩

/-- Claim C1: after a join-room event for a group, the sender is a member of
the corresponding room, a user-joined-group message carrying the sender
identity, the group id and the server timestamp is delivered exactly to the
connections that were already members of that room, and no delivery targets
the sender. -/
theorem c1_join_room_broadcast (secret : String) (s : ServerState) (sid : Nat)
    (g : Option String) (c : Conn)
    (hc : s.conns.find? (fun x => x.sid == sid) = some c) :
    (∃ x ∈ roomMembers (relayStep secret s (.inbound sid (.joinStudyGroup g)))
        ("group-" ++ jsStr g), x.sid = sid)
  ∧ (∀ d, d ∈ sentBy secret s (.inbound sid (.joinStudyGroup g)) ↔
      ∃ m ∈ s.conns, m.sid ≠ sid ∧ ("group-" ++ jsStr g) ∈ m.rooms ∧
        d = { target := m.sid, msg := .userJoinedGroup c.userId g s.now })
  ∧ (∀ d ∈ sentBy secret s (.inbound sid (.joinStudyGroup g)), d.target ≠ sid) := by
  obtain ⟨hcmem, hcsid⟩ := find?_sid_facts s.conns sid c hc
  have hsent : sentBy secret s (.inbound sid (.joinStudyGroup g))
      = emitToRoom (joinRoom s.conns c.sid ("group-" ++ jsStr g)) c.sid ("group-" ++ jsStr g)
          (.userJoinedGroup c.userId g s.now) :=
    sentBy_inbound_some secret s sid (.joinStudyGroup g) c hc
  rw [hcsid] at hsent
  have hiff : ∀ d, d ∈ sentBy secret s (.inbound sid (.joinStudyGroup g)) ↔
      ∃ m ∈ s.conns, m.sid ≠ sid ∧ ("group-" ++ jsStr g) ∈ m.rooms ∧
        d = { target := m.sid, msg := .userJoinedGroup c.userId g s.now } := by
    intro d
    rw [hsent, mem_emitToRoom]
    constructor
    · rintro ⟨x, hx, hxs, hxr, rfl⟩
      exact ⟨x, (mem_joinRoom_iff_of_ne s.conns sid _ x hxs).mp hx, hxs, hxr, rfl⟩
    · rintro ⟨m, hm, hms, hmr, rfl⟩
      exact ⟨m, (mem_joinRoom_iff_of_ne s.conns sid _ m hms).mpr hm, hms, hmr, rfl⟩
  refine ⟨?_, hiff, ?_⟩
  · have hconns : (relayStep secret s (.inbound sid (.joinStudyGroup g))).conns
        = joinRoom s.conns sid ("group-" ++ jsStr g) := by
      rw [relayStep_inbound_some secret s sid (.joinStudyGroup g) c hc]
      show joinRoom s.conns c.sid ("group-" ++ jsStr g) = _
      rw [hcsid]
    refine ⟨joinUpd sid ("group-" ++ jsStr g) c, ?_, ?_⟩
    · unfold roomMembers
      rw [hconns]
      apply List.mem_filter.mpr
      refine ⟨List.mem_map.mpr ⟨c, hcmem, rfl⟩, ?_⟩
      rw [decide_eq_true_eq]
      exact mem_rooms_joinUpd sid ("group-" ++ jsStr g) c hcsid
    · rw [joinUpd_sid]
      exact hcsid
  · intro d hd
    rcases (hiff d).mp hd with ⟨m, _, hms, _, rfl⟩
    exact hms

/-- Claim C4: a connection attempt without a token is rejected with the
no-token message and a token the verifier refuses is rejected with the
invalid-token message; in both cases the presence registry, the connection
list and the outbox are untouched, so no handler ran and no presence entry was
created. -/
theorem c4_gate_rejection (secret : String) (s : ServerState) (t : Token)
    (ht : jwtVerify secret t = none) :
    ((relayStep secret s (.connect none)).activeUsers = s.activeUsers
      ∧ (relayStep secret s (.connect none)).conns = s.conns
      ∧ (relayStep secret s (.connect none)).outbox = s.outbox
      ∧ (relayStep secret s (.connect none)).rejections
          = s.rejections ++ ["Authentication error: No token provided"])
  ∧ ((relayStep secret s (.connect (some t))).activeUsers = s.activeUsers
      ∧ (relayStep secret s (.connect (some t))).conns = s.conns
      ∧ (relayStep secret s (.connect (some t))).outbox = s.outbox
      ∧ (relayStep secret s (.connect (some t))).rejections
          = s.rejections ++ ["Authentication error: Invalid token"]) := by
  rw [relayStep_connect_none, relayStep_connect_invalid secret s t ht]
  exact ⟨⟨rfl, rfl, rfl, rfl⟩, ⟨rfl, rfl, rfl, rfl⟩⟩

/-- Claim C5: immediately after an admission exactly one presence entry holds
the admitted identity; every reachable registry holds at most one entry per
identity; an admission over an existing entry replaces it without growing the
registry; and entries of other identities are untouched. -/
theorem c5_registry_unique (secret : String) (acts : List RelayAction) (t : Token)
    (hsig : t.sig = secret) (hexp : t.expired = false) :
    countKey t.userId
        (relayStep secret (relayRun secret acts) (.connect (some t))).activeUsers = 1
  ∧ (∀ v : String,
        countKey v (relayRun secret acts).activeUsers ≤ 1
      ∧ countKey v (relayStep secret (relayRun secret acts) (.connect (some t))).activeUsers ≤ 1)
  ∧ ((mapGet t.userId (relayRun secret acts).activeUsers).isSome = true →
      (relayStep secret (relayRun secret acts) (.connect (some t))).activeUsers.length
        = (relayRun secret acts).activeUsers.length)
  ∧ (∀ v : String, v ≠ t.userId →
      mapGet v (relayStep secret (relayRun secret acts) (.connect (some t))).activeUsers
        = mapGet v (relayRun secret acts).activeUsers) := by
  have hnd := keysNodup_run secret acts
  rw [relayStep_connect_valid secret (relayRun secret acts) t hsig hexp]
  refine ⟨?_, ?_, ?_, ?_⟩
  · exact countKey_mapSet_self _ _ _ hnd
  · intro v
    exact ⟨countKey_le_one _ _ hnd, countKey_le_one _ _ (keysNodup_mapSet _ _ _ hnd)⟩
  · intro hs
    exact length_mapSet_of_isSome _ _ _ hs
  · intro v hv
    exact mapGet_mapSet_ne _ _ _ _ hv

/-- Claim C6: a heartbeat from an admitted connection is acknowledged with the
server clock to that connection only; when a presence entry for the sender
identity exists its lastSeen is bumped to the current clock, strictly above
its previous value; when no entry exists the registry is unchanged, so a
heartbeat never creates an entry. -/
theorem c6_heartbeat_ack (secret : String) (acts : List RelayAction) (sid : Nat) (c : Conn)
    (hc : (relayRun secret acts).conns.find? (fun x => x.sid == sid) = some c) :
    sentBy secret (relayRun secret acts) (.inbound sid .heartbeat)
      = [{ target := sid, msg := .heartbeatAck (relayRun secret acts).now }]
  ∧ (∀ e : PresenceEntry,
      mapGet c.userId (relayRun secret acts).activeUsers = some e →
        mapGet c.userId
            (relayStep secret (relayRun secret acts) (.inbound sid .heartbeat)).activeUsers
          = some { e with lastSeen := (relayRun secret acts).now }
        ∧ e.lastSeen < (relayRun secret acts).now)
  ∧ (mapGet c.userId (relayRun secret acts).activeUsers = none →
      (relayStep secret (relayRun secret acts) (.inbound sid .heartbeat)).activeUsers
        = (relayRun secret acts).activeUsers) := by
  obtain ⟨hcmem, hcsid⟩ := find?_sid_facts _ sid c hc
  refine ⟨?_, ?_, ?_⟩
  · rw [sentBy_inbound_some secret _ sid .heartbeat c hc]
    show [({ target := c.sid, msg := .heartbeatAck (relayRun secret acts).now } : Delivery)] = _
    rw [hcsid]
  · intro e he
    constructor
    · rw [relayStep_inbound_some secret _ sid .heartbeat c hc]
      show mapGet c.userId (eventActive (relayRun secret acts) c .heartbeat) = _
      rw [show eventActive (relayRun secret acts) c .heartbeat
          = mapSet c.userId { e with lastSeen := (relayRun secret acts).now }
              (relayRun secret acts).activeUsers from by rw [eventActive, he]]
      exact mapGet_mapSet_self _ _ _
    · exact entriesFresh_run secret acts (c.userId, e) (mem_of_mapGet_eq_some _ _ _ he)
  · intro he
    rw [relayStep_inbound_some secret _ sid .heartbeat c hc]
    show eventActive (relayRun secret acts) c .heartbeat = _
    rw [eventActive, he]

/-- Claim C2 (amended): a disconnect, whatever its reason, removes the
connection from every room, deletes its presence entry, broadcasts
user-offline globally to every remaining connection, and queues the
fire-and-forget persistence of last-seen; a persistence completion, in
particular a failed one, produces no delivery, no log line and no rejection,
so failures are swallowed silently. -/
theorem c2_disconnect_teardown (secret : String) (s z : ServerState) (sid : Nat)
    (reason : String) (c : Conn) (ok : Bool)
    (hc : s.conns.find? (fun x => x.sid == sid) = some c) :
    (∀ room : String, ∀ x ∈ roomMembers (relayStep secret s (.disconnect sid reason)) room,
        x.sid ≠ sid)
  ∧ mapGet c.userId (relayStep secret s (.disconnect sid reason)).activeUsers = none
  ∧ (∀ x ∈ (relayStep secret s (.disconnect sid reason)).conns,
      ({ target := x.sid, msg := .userOffline c.userId s.now } : Delivery)
        ∈ sentBy secret s (.disconnect sid reason))
  ∧ (∀ d ∈ sentBy secret s (.disconnect sid reason), d.msg = .userOffline c.userId s.now)
  ∧ (relayStep secret s (.disconnect sid reason)).pending = s.pending ++ [(c.userId, s.now)]
  ∧ (relayStep secret z (.persistResult ok)).outbox = z.outbox
  ∧ (relayStep secret z (.persistResult ok)).errlog = z.errlog
  ∧ (relayStep secret z (.persistResult ok)).rejections = z.rejections := by
  have hstep := relayStep_disconnect_some secret s sid reason c hc
  have hsent := sentBy_disconnect_some secret s sid reason c hc
  refine ⟨?_, ?_, ?_, ?_, ?_, outbox_relayStep_persist secret z ok,
         errlog_relayStep_persist secret z ok, rejections_relayStep_persist secret z ok⟩
  · intro room x hx
    rw [hstep] at hx
    have hx' : x ∈ (s.conns.filter (fun y => decide (y.sid ≠ sid))).filter
        (fun y => decide (room ∈ y.rooms)) := hx
    rcases List.mem_filter.mp hx' with ⟨hx1, _⟩
    rcases List.mem_filter.mp hx1 with ⟨_, hdec⟩
    rw [decide_eq_true_eq] at hdec
    exact hdec
  · rw [hstep]
    exact mapGet_mapDelete_self _ _
  · intro x hx
    rw [hsent]
    rw [hstep] at hx
    have hx' : x ∈ s.conns.filter (fun y => decide (y.sid ≠ sid)) := hx
    exact List.mem_map.mpr ⟨x, hx', rfl⟩
  · intro d hd
    rw [hsent] at hd
    rcases List.mem_map.mp hd with ⟨x, _, rfl⟩
    rfl
  · rw [hstep]

/-- Claim C3 (amended): along any execution in which no two simultaneously
active connections carry the same identity, a presence entry for an identity
exists exactly when an active connection with that identity exists. The
distinctness proviso is forced by the code: activeUsers is keyed by user id
alone, so disconnecting one of two same-identity connections deletes the
shared entry. -/
theorem c3_presence_iff (secret : String) (acts : List RelayAction) (u : String)
    (h : ∀ n : Nat, identsDistinct (relayRun secret (acts.take n))) :
    (mapGet u (relayRun secret acts).activeUsers).isSome = true ↔
      ∃ c ∈ (relayRun secret acts).conns, c.userId = u := by
  have main : ∀ l : List RelayAction,
      (∀ n : Nat, identsDistinct (relayRun secret (l.take n))) →
      presenceMatches (relayRun secret l) := by
    intro l
    induction l using List.reverseRecOn with
    | nil =>
      intro _ u'
      simp [relayRun, initState, mapGet]
    | append_singleton l' a ih =>
      intro hl
      rw [relayRun_append]
      refine presenceMatches_relayStep secret _ a (sidsOK_run secret l').1 ?_ (ih ?_)
      · have hfull := hl l'.length
        rwa [List.take_left] at hfull
      · intro n
        rcases Nat.le_total n l'.length with hn | hn
        · have hpre := hl n
          rwa [List.take_append_eq_append_take, Nat.sub_eq_zero_of_le hn, List.take_zero,
               List.append_nil] at hpre
        · rw [List.take_of_length_le hn]
          have hfull := hl l'.length
          rwa [List.take_left] at hfull
  exact (main acts h u).trans List.mem_map

/-- Claim C7 (amended): a collaboration-update whose payload is present but
lacks the group id raises nothing: the error log is unchanged (nothing is
logged), the update is broadcast to the literal room group-undefined and so
reaches only connections that joined that room, the sender connection list is
untouched, and a subsequent heartbeat from the same connection is still
acknowledged. -/
theorem c7_malformed_collab (secret : String) (s : ServerState) (sid : Nat) (c : Conn)
    (ty co : Option String)
    (hc : s.conns.find? (fun x => x.sid == sid) = some c) :
    ServerState.errlog (relayStep secret s (.inbound sid
        (.collabUpdate (some { groupId := none, typ := ty, content := co })))) = s.errlog
  ∧ (∀ d ∈ sentBy secret s (.inbound sid
        (.collabUpdate (some { groupId := none, typ := ty, content := co }))),
      ∃ m ∈ s.conns, m.sid ≠ sid ∧ "group-undefined" ∈ m.rooms ∧ d.target = m.sid)
  ∧ ServerState.conns (relayStep secret s (.inbound sid
        (.collabUpdate (some { groupId := none, typ := ty, content := co })))) = s.conns
  ∧ sentBy secret (relayStep secret s (.inbound sid
        (.collabUpdate (some { groupId := none, typ := ty, content := co }))))
      (.inbound sid .heartbeat)
      = [{ target := sid,
           msg := .heartbeatAck (ServerState.now (relayStep secret s (.inbound sid
             (.collabUpdate (some { groupId := none, typ := ty, content := co }))))) }] := by
  obtain ⟨hcmem, hcsid⟩ := find?_sid_facts s.conns sid c hc
  have hstep := relayStep_inbound_some secret s sid
    (.collabUpdate (some { groupId := none, typ := ty, content := co })) c hc
  refine ⟨?_, ?_, ?_, ?_⟩
  · rw [hstep]
    show s.errlog ++ [] = s.errlog
    exact List.append_nil _
  · intro d hd
    rw [sentBy_inbound_some secret s sid
      (.collabUpdate (some { groupId := none, typ := ty, content := co })) c hc] at hd
    have hd' : d ∈ emitToRoom s.conns c.sid ("group-" ++ jsStr none)
        (.collabUpdate c.userId ty co s.now) := hd
    rcases (mem_emitToRoom _ _ _ _ d).mp hd' with ⟨x, hx, hxs, hxr, rfl⟩
    rw [hcsid] at hxs
    exact ⟨x, hx, hxs, hxr, rfl⟩
  · rw [hstep]
    rfl
  · have hconns : ServerState.conns (relayStep secret s (.inbound sid
        (.collabUpdate (some { groupId := none, typ := ty, content := co })))) = s.conns := by
      rw [hstep]
      rfl
    have hc2 : (ServerState.conns (relayStep secret s (.inbound sid
        (.collabUpdate (some { groupId := none, typ := ty, content := co }))))).find?
          (fun x => x.sid == sid) = some c := by
      rw [hconns]
      exact hc
    rw [sentBy_inbound_some secret _ sid .heartbeat c hc2]
    show [({ target := c.sid, msg := .heartbeatAck _ } : Delivery)] = _
    rw [hcsid]

/-- Every step appends to the outbox a batch of deliveries none of which is an
error message: the only error emit in the source sits in an unreachable catch
block. -/
theorem outbox_relayStep_shape (secret : String) (s : ServerState) (a : RelayAction) :
    ∃ L : List Delivery, (relayStep secret s a).outbox = s.outbox ++ L
      ∧ ∀ d ∈ L, ∀ msg : String, d.msg ≠ .errorMsg msg := by
  cases a with
  | connect hs =>
    cases hs with
    | none => exact ⟨[], by rw [relayStep_connect_none]; simp, by simp⟩
    | some t =>
      by_cases hcond : t.sig = secret ∧ t.expired = false
      · refine ⟨broadcastAll s.conns s.nextSid (.userOnline t.userId s.now), ?_, ?_⟩
        · rw [relayStep_connect_valid secret s t hcond.1 hcond.2]
        · intro d hd msg
          rcases List.mem_map.mp hd with ⟨x, _, rfl⟩
          simp
      · refine ⟨[], ?_, by simp⟩
        rw [relayStep_connect_invalid secret s t (by rw [jwtVerify, if_neg hcond])]
        simp
  | inbound sid e =>
    cases hc : s.conns.find? (fun x => x.sid == sid) with
    | none =>
      refine ⟨[], ?_, by simp⟩
      rw [relayStep_inbound_none secret s sid e hc]
      simp
    | some c =>
      refine ⟨eventDeliveries s c e, ?_, ?_⟩
      · rw [relayStep_inbound_some secret s sid e c hc]
        rfl
      · intro d hd msg
        cases e with
        | joinStudyGroup g =>
          rcases (mem_emitToRoom _ _ _ _ d).mp hd with ⟨x, _, _, _, rfl⟩
          simp
        | collabUpdate dd =>
          cases dd with
          | none => simp [eventDeliveries] at hd
          | some dd =>
            rcases (mem_emitToRoom _ _ _ _ d).mp hd with ⟨x, _, _, _, rfl⟩
            simp
        | practiceUpdate dd =>
          cases dd with
          | none => simp [eventDeliveries] at hd
          | some dd =>
            rcases (mem_emitToRoom _ _ _ _ d).mp hd with ⟨x, _, _, _, rfl⟩
            simp
        | typing dd =>
          cases dd with
          | none => simp [eventDeliveries] at hd
          | some dd =>
            rcases (mem_emitToRoom _ _ _ _ d).mp hd with ⟨x, _, _, _, rfl⟩
            simp
        | heartbeat =>
          have hdd : d = { target := c.sid, msg := .heartbeatAck s.now } := by
            simpa [eventDeliveries] using hd
          rw [hdd]
          simp
  | disconnect sid reason =>
    cases hc : s.conns.find? (fun x => x.sid == sid) with
    | none =>
      refine ⟨[], ?_, by simp⟩
      rw [show relayStep secret s (.disconnect sid reason) = { s with now := s.now + 1 }
          from by simp [relayStep, hc]]
      simp
    | some c =>
      refine ⟨(s.conns.filter (fun x => decide (x.sid ≠ sid))).map
        (fun x => { target := x.sid, msg := .userOffline c.userId s.now }), ?_, ?_⟩
      · rw [relayStep_disconnect_some secret s sid reason c hc]
      · intro d hd msg
        rcases List.mem_map.mp hd with ⟨x, _, rfl⟩
        simp
  | persistResult ok =>
    refine ⟨[], ?_, by simp⟩
    rw [outbox_relayStep_persist]
    simp

/-- Claim C8: no reachable outbox holds an error-event delivery, and the only
delivery an inbound event ever produces for its own sender is the heartbeat
acknowledgement stamped with the server clock. -/
theorem c8_no_error_to_sender (secret : String) (acts : List RelayAction) (s : ServerState)
    (sid : Nat) (e : InEvent) :
    (∀ d ∈ (relayRun secret acts).outbox, ∀ msg : String, d.msg ≠ .errorMsg msg)
  ∧ (∀ d ∈ sentBy secret s (.inbound sid e), d.target = sid →
      d.msg = .heartbeatAck s.now) := by
  constructor
  · refine run_invariant secret
      (fun z => ∀ d ∈ z.outbox, ∀ msg : String, d.msg ≠ .errorMsg msg) ?_ ?_ acts
    · intro z a hz d hd msg
      rcases outbox_relayStep_shape secret z a with ⟨L, hL, hLok⟩
      rw [hL] at hd
      rcases List.mem_append.mp hd with hd | hd
      · exact hz d hd msg
      · exact hLok d hd msg
    · intro d hd
      simp [initState] at hd
  · intro d hd htarget
    cases hc : s.conns.find? (fun x => x.sid == sid) with
    | none =>
      rw [sentBy_inbound_none secret s sid e hc] at hd
      simp at hd
    | some c =>
      obtain ⟨hcmem, hcsid⟩ := find?_sid_facts s.conns sid c hc
      rw [sentBy_inbound_some secret s sid e c hc] at hd
      cases e with
      | joinStudyGroup g =>
        rcases (mem_emitToRoom _ _ _ _ d).mp hd with ⟨x, _, hxs, _, rfl⟩
        rw [hcsid] at hxs
        exact absurd htarget hxs
      | collabUpdate dd =>
        cases dd with
        | none => simp [eventDeliveries] at hd
        | some dd =>
          rcases (mem_emitToRoom _ _ _ _ d).mp hd with ⟨x, _, hxs, _, rfl⟩
          rw [hcsid] at hxs
          exact absurd htarget hxs
      | practiceUpdate dd =>
        cases dd with
        | none => simp [eventDeliveries] at hd
        | some dd =>
          rcases (mem_emitToRoom _ _ _ _ d).mp hd with ⟨x, _, hxs, _, rfl⟩
          rw [hcsid] at hxs
          exact absurd htarget hxs
      | typing dd =>
        cases dd with
        | none => simp [eventDeliveries] at hd
        | some dd =>
          rcases (mem_emitToRoom _ _ _ _ d).mp hd with ⟨x, _, hxs, _, rfl⟩
          rw [hcsid] at hxs
          exact absurd htarget hxs
      | heartbeat =>
        have hdd : d = { target := c.sid, msg := .heartbeatAck s.now } := by
          simpa [eventDeliveries] using hd
        rw [hdd]

/-- Claim C9 (amended): the eviction of limitCacheSize is exact FIFO, it
deletes the oldest entries so that exactly maxItems of the most recently
inserted remain and is the identity within the limit; but the dynamic-request
path trims before inserting, so one caching step can leave up to 51 entries,
one more than the configured limit of 50. -/
theorem c9_cache_limit (cache : List Nat) (maxItems k : Nat) (ok : Bool)
    (h51 : cache.length ≤ 51) :
    (maxItems < cache.length →
        limitCacheSize cache maxItems = cache.drop (cache.length - maxItems)
      ∧ (limitCacheSize cache maxItems).length = maxItems)
  ∧ (cache.length ≤ maxItems → limitCacheSize cache maxItems = cache)
  ∧ (handleDynamicRequest cache k ok).length ≤ 51 := by
  refine ⟨?_, ?_, ?_⟩
  · intro hover
    rw [limitCacheSize, if_pos hover]
    refine ⟨rfl, ?_⟩
    rw [List.length_drop]
    omega
  · intro hle
    rw [limitCacheSize, if_neg (by omega)]
  · have hlim : (limitCacheSize cache 50).length ≤ 50 := by
      rw [limitCacheSize]
      by_cases hcc : cache.length > 50
      · rw [if_pos hcc, List.length_drop]
        omega
      · rw [if_neg hcc]
        omega
    cases ok with
    | false =>
      show cache.length ≤ 51
      exact h51
    | true =>
      show (cachePut (limitCacheSize cache 50) k).length ≤ 51
      rw [cachePut]
      by_cases hk : k ∈ limitCacheSize cache 50
      · rw [if_pos hk]
        omega
      · rw [if_neg hk, List.length_append, List.length_cons, List.length_nil]
        omega

/-- Claim C10 (amended): a typing event targets exactly the room named by its
roomId field, verbatim; joining a group subscribes the sender to the room
group-<id>, which is never equal to the bare id; hence membership in a group
never by itself makes a connection a recipient of a typing event naming the
bare group id (only a connection with some other subscription to a room
literally so named receives it), while a typing event whose roomId already
carries the group- marker reaches every other member of the group. -/
theorem c10_typing_rooms (secret : String) (s : ServerState) (sid : Nat) (c : Conn)
    (r G : String) (hc : s.conns.find? (fun x => x.sid == sid) = some c) :
    (∀ d, d ∈ sentBy secret s (.inbound sid (.typing (some { roomId := some r }))) ↔
        ∃ m ∈ s.conns, m.sid ≠ sid ∧ r ∈ m.rooms ∧
          d = { target := m.sid, msg := .userTyping c.userId s.now })
  ∧ (∃ x ∈ ServerState.conns (relayStep secret s (.inbound sid (.joinStudyGroup (some G)))),
        x.sid = sid ∧ ("group-" ++ G) ∈ x.rooms)
  ∧ ("group-" ++ G) ≠ G
  ∧ (∀ m ∈ s.conns, m.sid ≠ sid → ("group-" ++ G) ∈ m.rooms →
      ({ target := m.sid, msg := .userTyping c.userId s.now } : Delivery)
        ∈ sentBy secret s (.inbound sid (.typing (some { roomId := some ("group-" ++ G) })))) := by
  obtain ⟨hcmem, hcsid⟩ := find?_sid_facts s.conns sid c hc
  refine ⟨?_, ?_, ?_, ?_⟩
  · intro d
    rw [sentBy_inbound_some secret s sid (.typing (some { roomId := some r })) c hc]
    have hev : eventDeliveries s c (.typing (some { roomId := some r }))
        = emitToRoom s.conns c.sid r (.userTyping c.userId s.now) := rfl
    rw [hev, mem_emitToRoom]
    constructor
    · rintro ⟨x, hx, hxs, hxr, rfl⟩
      rw [hcsid] at hxs
      exact ⟨x, hx, hxs, hxr, rfl⟩
    · rintro ⟨m, hm, hms, hmr, rfl⟩
      refine ⟨m, hm, ?_, hmr, rfl⟩
      rw [hcsid]
      exact hms
  · rw [relayStep_inbound_some secret s sid (.joinStudyGroup (some G)) c hc]
    refine ⟨joinUpd c.sid ("group-" ++ G) c, ?_, ?_, ?_⟩
    · show joinUpd c.sid ("group-" ++ G) c ∈ joinRoom s.conns c.sid ("group-" ++ jsStr (some G))
      exact List.mem_map.mpr ⟨c, hcmem, rfl⟩
    · rw [joinUpd_sid]
      exact hcsid
    · exact mem_rooms_joinUpd c.sid ("group-" ++ G) c rfl
  · intro hh
    have hlen := congrArg String.length hh
    rw [String.length_append] at hlen
    have h6 : "group-".length = 6 := rfl
    rw [h6] at hlen
    omega
  · intro m hm hms hmr
    rw [sentBy_inbound_some secret s sid
      (.typing (some { roomId := some ("group-" ++ G) })) c hc]
    refine (mem_emitToRoom s.conns c.sid ("group-" ++ G) (.userTyping c.userId s.now) _).mpr
      ⟨m, hm, ?_, hmr, rfl⟩
    rw [hcsid]
    exact hms

/-- Counterexample to claim C3 as stated: after two admissions of identity u1
and the disconnect of the second connection, a connection of identity u1 is
still active while its presence entry is gone. -/
theorem c3_presence_counterexample :
    (∃ c ∈ (relayRun "sec" c3CexActs).conns, c.userId = "u1")
  ∧ mapGet "u1" (relayRun "sec" c3CexActs).activeUsers = none := by
  decide

/-- Counterexample to claim C2 as stated: the queued persistence write of the
disconnect of u1 is consumed by a failing completion, yet the error log stays
empty (the source swallows the rejection without logging), nothing is
delivered and nothing is stored. -/
theorem c2_disconnect_counterexample :
    (relayRun "sec" (c2CexActs.take 2)).pending = [("u1", 1)]
  ∧ (relayRun "sec" c2CexActs).pending = []
  ∧ (relayRun "sec" c2CexActs).errlog = []
  ∧ (relayRun "sec" c2CexActs).outbox = (relayRun "sec" (c2CexActs.take 2)).outbox
  ∧ (relayRun "sec" c2CexActs).userStore = [] := by
  decide

/-- Counterexample to claim C7 as stated: a collaboration-update lacking its
group id is delivered to the connection that joined the study group named
undefined, and nothing is logged. -/
theorem c7_malformed_counterexample :
    ({ target := 1, msg := .collabUpdate "u1" (some "note") (some "hello") 3 } : Delivery)
      ∈ (relayRun "sec" c7CexActs).outbox
  ∧ (relayRun "sec" c7CexActs).errlog = [] := by
  decide

/-- Counterexample to claim C9 as stated: a dynamic caching step on a cache
already holding the configured limit of 50 entries leaves 51, exceeding the
limit, because the trim runs before the put. -/
theorem c9_cache_counterexample :
    (handleDynamicRequest (List.range 50) 50 true).length > 50 := by
  decide

/-- Counterexample to claim C10 as stated: u1 joins the study group named
user-u1 (so u1 is a member of that group), and the typing event of u2 naming
the bare group id user-u1 is delivered to u1 through its personal room. -/
theorem c10_typing_counterexample :
    (∃ x ∈ (relayRun "sec" c10CexActs).conns, x.sid = 0 ∧ "group-user-u1" ∈ x.rooms)
  ∧ ({ target := 0, msg := .userTyping "u2" 3 } : Delivery)
      ∈ (relayRun "sec" c10CexActs).outbox := by
  decide

/-- Witness for claim C1 at a concrete trace: u2 joins g1 after u1 did; u2 is
a member of the room and u1 receives the user-joined-group message. -/
theorem c1_join_room_broadcast_witness :
    (∃ x ∈ roomMembers (relayStep "sec" (relayRun "sec" wActs)
        (.inbound 1 (.joinStudyGroup (some "g1")))) ("group-" ++ jsStr (some "g1")), x.sid = 1)
  ∧ ({ target := 0, msg := .userJoinedGroup "u2" (some "g1") 3 } : Delivery)
      ∈ sentBy "sec" (relayRun "sec" wActs) (.inbound 1 (.joinStudyGroup (some "g1"))) := by
  have h := c1_join_room_broadcast "sec" (relayRun "sec" wActs) 1 (some "g1")
    { sid := 1, userId := "u2", email := "e2", rooms := ["user-u2"] } (by decide)
  refine ⟨h.1, ?_⟩
  refine (h.2.1 _).mpr ⟨{ sid := 0, userId := "u1", email := "e1", rooms := ["user-u1", "group-g1"] }, ?_, ?_, ?_, ?_⟩
  · decide
  · decide
  · decide
  · decide

/-- Witness for claim C2 at a concrete trace: disconnecting u1 deletes its
presence entry, notifies u2 globally and queues the persistence write. -/
theorem c2_disconnect_teardown_witness :
    mapGet "u1" (relayStep "sec" (relayRun "sec" wActs2)
      (.disconnect 0 "transport close")).activeUsers = none
  ∧ ({ target := 1, msg := .userOffline "u1" 2 } : Delivery)
      ∈ sentBy "sec" (relayRun "sec" wActs2) (.disconnect 0 "transport close")
  ∧ (relayStep "sec" (relayRun "sec" wActs2) (.disconnect 0 "transport close")).pending
      = (relayRun "sec" wActs2).pending ++ [("u1", 2)] := by
  have h := c2_disconnect_teardown "sec" (relayRun "sec" wActs2) initState 0
    "transport close" { sid := 0, userId := "u1", email := "e1", rooms := ["user-u1"] }
    false (by decide)
  refine ⟨h.2.1, ?_, h.2.2.2.2.1⟩
  exact h.2.2.1 { sid := 1, userId := "u2", email := "e2", rooms := ["user-u2"] } (by decide)

/-- Witness for claim C3 at a concrete trace of two distinct identities. -/
theorem c3_presence_iff_witness :
    (mapGet "u1" (relayRun "sec" wActs2).activeUsers).isSome = true ↔
      ∃ c ∈ (relayRun "sec" wActs2).conns, c.userId = "u1" := by
  refine c3_presence_iff "sec" wActs2 "u1" ?_
  intro n
  match n with
  | 0 => unfold identsDistinct; decide
  | 1 => unfold identsDistinct; decide
  | (m + 2) =>
    rw [List.take_of_length_le (Nat.le_add_left 2 m)]
    unfold identsDistinct
    decide

/-- Witness for claim C4 at a concrete bad token and the empty state. -/
theorem c4_gate_rejection_witness :
    (relayStep "sec" initState (.connect (some tokBad))).activeUsers = initState.activeUsers
  ∧ (relayStep "sec" initState (.connect none)).rejections
      = initState.rejections ++ ["Authentication error: No token provided"] := by
  have h := c4_gate_rejection "sec" initState tokBad (by decide)
  exact ⟨h.2.1, h.1.2.2.2⟩

/-- Witness for claim C5 at a concrete reconnect of u1 over its own entry. -/
theorem c5_registry_unique_witness :
    countKey "u1" (relayStep "sec" (relayRun "sec" wActs2)
      (.connect (some tokU1))).activeUsers = 1
  ∧ (relayStep "sec" (relayRun "sec" wActs2) (.connect (some tokU1))).activeUsers.length
      = (relayRun "sec" wActs2).activeUsers.length := by
  have h := c5_registry_unique "sec" wActs2 tokU1 rfl rfl
  exact ⟨h.1, h.2.2.1 (by decide)⟩

/-- Witness for claim C6 at a concrete heartbeat of u1. -/
theorem c6_heartbeat_ack_witness :
    sentBy "sec" (relayRun "sec" wActs2) (.inbound 0 .heartbeat)
      = [{ target := 0, msg := .heartbeatAck 2 }]
  ∧ mapGet "u1" (relayStep "sec" (relayRun "sec" wActs2)
      (.inbound 0 .heartbeat)).activeUsers
      = some { socketId := 0, connectedAt := 0, lastSeen := 2 }
  ∧ (0 : Nat) < 2 := by
  have h := c6_heartbeat_ack "sec" wActs2 0
    { sid := 0, userId := "u1", email := "e1", rooms := ["user-u1"] } (by decide)
  have h2 := h.2.1 { socketId := 0, connectedAt := 0, lastSeen := 0 } (by decide)
  exact ⟨h.1, h2.1, h2.2⟩

/-- Witness for claim C7 at a concrete malformed update of u1: nothing logged
and the follow-up heartbeat still acknowledged. -/
theorem c7_malformed_collab_witness :
    ServerState.errlog (relayStep "sec" (relayRun "sec" wActs2) (.inbound 0
      (.collabUpdate (some { groupId := none, typ := some "note", content := some "hi" }))))
      = []
  ∧ sentBy "sec" (relayStep "sec" (relayRun "sec" wActs2) (.inbound 0
      (.collabUpdate (some { groupId := none, typ := some "note", content := some "hi" }))))
      (.inbound 0 .heartbeat)
      = [{ target := 0, msg := .heartbeatAck 3 }] := by
  have h := c7_malformed_collab "sec" (relayRun "sec" wActs2) 0
    { sid := 0, userId := "u1", email := "e1", rooms := ["user-u1"] }
    (some "note") (some "hi") (by decide)
  exact ⟨h.1, h.2.2.2⟩

/-- Witness for claim C8 at concrete runs: a broadcast delivery of the traces
is no error event, and the delivery a heartbeat sends back to its sender is
the acknowledgement. -/
theorem c8_no_error_to_sender_witness :
    ({ target := 1, msg := .collabUpdate "u1" (some "note") (some "hello") 3 } : Delivery).msg
      ≠ .errorMsg "boom"
  ∧ ({ target := 0, msg := .heartbeatAck 2 } : Delivery).msg = .heartbeatAck 2 := by
  have h := c8_no_error_to_sender "sec" c7CexActs (relayRun "sec" wActs2) 0 .heartbeat
  refine ⟨h.1 _ (by decide) "boom", ?_⟩
  exact h.2 { target := 0, msg := .heartbeatAck 2 } (by decide) rfl

/-- Witness for claim C9 at a concrete 51-entry cache. -/
theorem c9_cache_limit_witness :
    (limitCacheSize (List.range 51) 50).length = 50
  ∧ (handleDynamicRequest (List.range 51) 7 true).length ≤ 51 := by
  have h := c9_cache_limit (List.range 51) 50 7 true (by decide)
  exact ⟨(h.1 (by decide)).2, h.2.2⟩

/-- Witness for claim C10 at a concrete trace: the typing event of u2 naming
the room with the group- marker reaches the group member u1, and the marked
name differs from the bare one. -/
theorem c10_typing_rooms_witness :
    ({ target := 0, msg := .userTyping "u2" 3 } : Delivery)
      ∈ sentBy "sec" (relayRun "sec" wActs) (.inbound 1
          (.typing (some { roomId := some ("group-" ++ "g1") })))
  ∧ ("group-" ++ "g1") ≠ "g1" := by
  have h := c10_typing_rooms "sec" (relayRun "sec" wActs) 1
    { sid := 1, userId := "u2", email := "e2", rooms := ["user-u2"] } "x" "g1" (by decide)
  refine ⟨?_, h.2.2.1⟩
  exact h.2.2.2 { sid := 0, userId := "u1", email := "e1", rooms := ["user-u1", "group-g1"] }
    (by decide) (by decide) (by decide)
